import Mathlib

/-!
Verification of the procedural-mountains core: the noise-composition
pipeline (fbm, ridgedNoise, domainWarp, alpineHeight), the terrain height
query (getHeightAt), and the day/night lighting state machine
(DayNightCycle: toggle, update, getCurrentValue, easeInOutCubic).

All real-valued code is embedded over ℝ; the seeded simplex-noise
primitive noise2D is an external library function and is taken as an
explicit function parameter.
-/

namespace Mountains

/-! ## Noise composition (src/utils/noise.js) -/

/-- The accumulation loop shared by fbm: state is
(remaining octaves, total, frequency, amplitude, maxValue); returns the
final (total, maxValue). -/
def fbmAux (noise2D : ℝ → ℝ → ℝ) (x y persistence lacunarity : ℝ) :
    ℕ → ℝ → ℝ → ℝ → ℝ → ℝ × ℝ
  | 0, total, _frequency, _amplitude, maxValue => (total, maxValue)
  | n + 1, total, frequency, amplitude, maxValue =>
      fbmAux noise2D x y persistence lacunarity n
        (total + noise2D (x * frequency) (y * frequency) * amplitude)
        (frequency * lacunarity) (amplitude * persistence)
        (maxValue + amplitude)

/-- Fractal Brownian Motion: multi-octave noise, normalized by the sum of
the amplitudes used. -/
noncomputable def fbm (noise2D : ℝ → ℝ → ℝ) (x y : ℝ) (octaves : ℕ)
    (persistence lacunarity scale : ℝ) : ℝ :=
  let r := fbmAux noise2D x y persistence lacunarity octaves 0 scale 1 0
  r.1 / r.2

/-- The accumulation loop of ridgedNoise: each octave sample n is
transformed to (1 - |n|)^2 before weighting. -/
def ridgedAux (noise2D : ℝ → ℝ → ℝ) (x y persistence lacunarity : ℝ) :
    ℕ → ℝ → ℝ → ℝ → ℝ → ℝ × ℝ
  | 0, total, _frequency, _amplitude, maxValue => (total, maxValue)
  | n + 1, total, frequency, amplitude, maxValue =>
      ridgedAux noise2D x y persistence lacunarity n
        (total +
          (1 - |noise2D (x * frequency) (y * frequency)|) *
            (1 - |noise2D (x * frequency) (y * frequency)|) * amplitude)
        (frequency * lacunarity) (amplitude * persistence)
        (maxValue + amplitude)

/-- Ridged multi-fractal noise. -/
noncomputable def ridgedNoise (noise2D : ℝ → ℝ → ℝ) (x y : ℝ) (octaves : ℕ)
    (persistence lacunarity scale : ℝ) : ℝ :=
  let r := ridgedAux noise2D x y persistence lacunarity octaves 0 scale 1 0
  r.1 / r.2

/-- Domain warping: perturbs (x, y) by two decorrelated 4-octave fbm
samples scaled by warpStrength. -/
noncomputable def domainWarp (noise2D : ℝ → ℝ → ℝ)
    (x y warpStrength scale : ℝ) : ℝ × ℝ :=
  let warpX := fbm noise2D x y 4 0.5 2.0 scale
  let warpY := fbm noise2D (x + 5.2) (y + 1.3) 4 0.5 2.0 scale
  (x + warpX * warpStrength, y + warpY * warpStrength)

/-- Combined terrain height function for alpine mountains, translated
line by line from alpineHeight in src/utils/noise.js. -/
noncomputable def alpineHeight (noise2D : ℝ → ℝ → ℝ) (x y : ℝ) : ℝ :=
  let warped := domainWarp noise2D x y 0.4 0.3
  let baseHeight := fbm noise2D warped.1 warped.2 5 0.5 2.0 1.5
  let ridges := ridgedNoise noise2D warped.1 warped.2 5 0.5 2.2 2.0
  let largeScale := fbm noise2D x y 3 0.4 2.0 0.4
  let ridgeBlend := max 0 (largeScale * 0.5 + 0.5)
  let height0 := baseHeight * (1 - ridgeBlend * 0.6) + ridges * ridgeBlend * 0.8
  let detail := fbm noise2D (x * 4) (y * 4) 3 0.4 2.5 4.0 * 0.1
  let height1 := height0 + detail
  let height2 := (height1 + 1) * 0.5
  let height3 := height2 ^ (1.3 : ℝ)
  let height4 := if height3 < 0.25 then height3 * 0.7 + 0.25 * 0.3 else height3
  max 0 (min 1 height4)

/-- Reference definition of the alpine height pipeline written from the
specification's step list (section 4.1, steps 1-11), to be compared with
the source translation alpineHeight. -/
noncomputable def alpineHeightSpec (noise2D : ℝ → ℝ → ℝ) (x y : ℝ) : ℝ :=
  let warped := domainWarp noise2D x y 0.4 0.3
  let baseHeight := fbm noise2D warped.1 warped.2 5 0.5 2.0 1.5
  let ridges := ridgedNoise noise2D warped.1 warped.2 5 0.5 2.2 2.0
  let largeScale := fbm noise2D x y 3 0.4 2.0 0.4
  let ridgeBlend := max 0 (largeScale * 0.5 + 0.5)
  let blended := baseHeight * (1 - ridgeBlend * 0.6) + ridges * ridgeBlend * 0.8
  let withDetail := blended + fbm noise2D (x * 4) (y * 4) 3 0.4 2.5 4.0 * 0.1
  let remapped := (withDetail + 1) * 0.5
  let sharpened := remapped ^ (1.3 : ℝ)
  let flattened := if sharpened < 0.25 then sharpened * 0.7 + 0.075 else sharpened
  max 0 (min 1 flattened)

/-! ## Terrain height query (src/terrain/TerrainGenerator.js) -/

/-- getHeightAt: normalizes world coordinates and either returns the
sentinel 0 (off terrain) or the scaled alpine height. -/
noncomputable def getHeightAt (noise2D : ℝ → ℝ → ℝ)
    (width depth heightScale x z : ℝ) : ℝ :=
  let nx := (x + width / 2) / width
  let nz := (z + depth / 2) / depth
  if nx < 0 ∨ nx > 1 ∨ nz < 0 ∨ nz > 1 then 0
  else alpineHeight noise2D nx nz * heightScale

/-! ## Lighting data model (src/lighting/DayNightCycle.js) -/

/-- A 3-vector with real components (THREE.Vector3). -/
@[ext]
structure Vec3 where
  x : ℝ
  y : ℝ
  z : ℝ

/-- An RGB color with real channels (THREE.Color). -/
@[ext]
structure Color where
  r : ℝ
  g : ℝ
  b : ℝ

/-- Euclidean length of a Vec3. -/
noncomputable def norm3 (v : Vec3) : ℝ :=
  Real.sqrt (v.x * v.x + v.y * v.y + v.z * v.z)

/-- THREE.Vector3.normalize: divide each component by the length. -/
noncomputable def normalize3 (v : Vec3) : Vec3 :=
  ⟨v.x / norm3 v, v.y / norm3 v, v.z / norm3 v⟩

/-- THREE.MathUtils.lerp. -/
def lerp (a b t : ℝ) : ℝ := a + (b - a) * t

/-- THREE.Vector3.lerpVectors, componentwise. -/
def lerpVec3 (a b : Vec3) (t : ℝ) : Vec3 :=
  ⟨lerp a.x b.x t, lerp a.y b.y t, lerp a.z b.z t⟩

/-- THREE.Color.lerpColors, per channel. -/
def lerpColor (a b : Color) (t : ℝ) : Color :=
  ⟨lerp a.r b.r t, lerp a.g b.g t, lerp a.b b.b t⟩

/-- The full lighting state record interpolated by the day/night cycle. -/
@[ext]
structure LightingState where
  sunPosition : Vec3
  sunDirection : Vec3
  sunColor : Color
  sunIntensity : ℝ
  ambientColor : Color
  ambientIntensity : ℝ
  hemiSkyColor : Color
  hemiGroundColor : Color
  hemiIntensity : ℝ
  skyTopColor : Color
  skyMiddleColor : Color
  skyBottomColor : Color
  skyHorizonColor : Color
  skySunColor : Color
  skySunIntensity : ℝ
  skyStarIntensity : ℝ
  fogColor : Color
  fogDensity : ℝ
  terrainDayNightMix : ℝ
  exposure : ℝ

/-- Canonical day lighting state (createDayState). -/
noncomputable def dayState : LightingState where
  sunPosition := ⟨100, 200, 80⟩
  sunDirection := normalize3 ⟨0.4, 0.8, 0.3⟩
  sunColor := ⟨1.0, 0.98, 0.92⟩
  sunIntensity := 2.0
  ambientColor := ⟨0.5, 0.6, 0.8⟩
  ambientIntensity := 0.5
  hemiSkyColor := ⟨0.6, 0.75, 0.9⟩
  hemiGroundColor := ⟨0.3, 0.4, 0.25⟩
  hemiIntensity := 0.4
  skyTopColor := ⟨0.15, 0.35, 0.75⟩
  skyMiddleColor := ⟨0.4, 0.6, 0.85⟩
  skyBottomColor := ⟨0.5, 0.55, 0.6⟩
  skyHorizonColor := ⟨0.65, 0.78, 0.88⟩
  skySunColor := ⟨1.0, 0.98, 0.92⟩
  skySunIntensity := 1.2
  skyStarIntensity := 0.0
  fogColor := ⟨0.6, 0.75, 0.9⟩
  fogDensity := 0.0008
  terrainDayNightMix := 0.0
  exposure := 1.0

/-- Canonical night lighting state (createNightState). -/
noncomputable def nightState : LightingState where
  sunPosition := ⟨-80, 100, -60⟩
  sunDirection := normalize3 ⟨-0.3, 0.6, -0.3⟩
  sunColor := ⟨0.6, 0.7, 0.9⟩
  sunIntensity := 0.3
  ambientColor := ⟨0.1, 0.12, 0.2⟩
  ambientIntensity := 0.3
  hemiSkyColor := ⟨0.08, 0.1, 0.2⟩
  hemiGroundColor := ⟨0.02, 0.03, 0.05⟩
  hemiIntensity := 0.2
  skyTopColor := ⟨0.01, 0.01, 0.05⟩
  skyMiddleColor := ⟨0.03, 0.04, 0.1⟩
  skyBottomColor := ⟨0.02, 0.02, 0.05⟩
  skyHorizonColor := ⟨0.06, 0.07, 0.12⟩
  skySunColor := ⟨0.8, 0.85, 1.0⟩
  skySunIntensity := 0.5
  skyStarIntensity := 1.0
  fogColor := ⟨0.05, 0.06, 0.1⟩
  fogDensity := 0.0015
  terrainDayNightMix := 1.0
  exposure := 0.6

/-- easeInOutCubic from DayNightCycle. -/
noncomputable def easeInOutCubic (t : ℝ) : ℝ :=
  if t < 0.5 then 4 * t * t * t else 1 - (-2 * t + 2) ^ (3 : ℕ) / 2

/-- lerpState: interpolate every field at the eased factor; the sun
direction is renormalized after interpolation. -/
noncomputable def lerpState (a b : LightingState) (t : ℝ) : LightingState :=
  let eased := easeInOutCubic t
  { sunPosition := lerpVec3 a.sunPosition b.sunPosition eased
    sunDirection := normalize3 (lerpVec3 a.sunDirection b.sunDirection eased)
    sunColor := lerpColor a.sunColor b.sunColor eased
    sunIntensity := lerp a.sunIntensity b.sunIntensity eased
    ambientColor := lerpColor a.ambientColor b.ambientColor eased
    ambientIntensity := lerp a.ambientIntensity b.ambientIntensity eased
    hemiSkyColor := lerpColor a.hemiSkyColor b.hemiSkyColor eased
    hemiGroundColor := lerpColor a.hemiGroundColor b.hemiGroundColor eased
    hemiIntensity := lerp a.hemiIntensity b.hemiIntensity eased
    skyTopColor := lerpColor a.skyTopColor b.skyTopColor eased
    skyMiddleColor := lerpColor a.skyMiddleColor b.skyMiddleColor eased
    skyBottomColor := lerpColor a.skyBottomColor b.skyBottomColor eased
    skyHorizonColor := lerpColor a.skyHorizonColor b.skyHorizonColor eased
    skySunColor := lerpColor a.skySunColor b.skySunColor eased
    skySunIntensity := lerp a.skySunIntensity b.skySunIntensity eased
    skyStarIntensity := lerp a.skyStarIntensity b.skyStarIntensity eased
    fogColor := lerpColor a.fogColor b.fogColor eased
    fogDensity := lerp a.fogDensity b.fogDensity eased
    terrainDayNightMix := lerp a.terrainDayNightMix b.terrainDayNightMix eased
    exposure := lerp a.exposure b.exposure eased }

/-- The mutable state of the DayNightCycle machine: 0 = day, 1 = night. -/
structure DayNight where
  currentState : ℕ
  targetState : ℕ
  transitionProgress : ℝ
  transitionDuration : ℝ
  isTransitioning : Bool
  currentColors : LightingState

/-- Constructor state of DayNightCycle. -/
noncomputable def initial : DayNight :=
  ⟨0, 0, 0, 2.5, false, dayState⟩

/-- stateOf selects the canonical colors for a discrete state, mirroring
the ternaries currentState === 0 ? dayColors : nightColors. -/
noncomputable def stateOf (n : ℕ) : LightingState :=
  if n = 0 then dayState else nightState

/-- The spec's opposite(·) on discrete day/night states. -/
def opposite (n : ℕ) : ℕ := if n = 0 then 1 else 0

/-- toggle: start a fresh transition from idle, or flip only the target
while a transition is active. -/
def toggle (s : DayNight) : DayNight :=
  if s.isTransitioning then
    { s with targetState := if s.targetState = 0 then 1 else 0 }
  else
    { s with
      targetState := if s.currentState = 0 then 1 else 0
      isTransitioning := true
      transitionProgress := 0 }

/-- setTransitionDuration. -/
def setTransitionDuration (s : DayNight) (duration : ℝ) : DayNight :=
  { s with transitionDuration := duration }

/-- update(deltaTime): advance the transition and emit the blended state;
returns the new machine state and the state pushed to the scene sink
(none when idle). The from-state is read after the completion branch has
possibly assigned currentState := targetState, exactly as in the source. -/
noncomputable def update (s : DayNight) (deltaTime : ℝ) :
    DayNight × Option LightingState :=
  if s.isTransitioning then
    let p := s.transitionProgress + deltaTime / s.transitionDuration
    let p' := if 1 ≤ p then 1 else p
    let cur' := if 1 ≤ p then s.targetState else s.currentState
    let trans' := if 1 ≤ p then false else true
    let blended := lerpState (stateOf cur') (stateOf s.targetState) p'
    ({ s with
        transitionProgress := p'
        currentState := cur'
        isTransitioning := trans'
        currentColors := blended },
      some blended)
  else (s, none)

/-- getCurrentValue: the continuous day/night blend amount. -/
noncomputable def getCurrentValue (s : DayNight) : ℝ :=
  if s.isTransitioning then
    (s.currentState : ℝ) +
      (if s.currentState < s.targetState then 1 else -1) *
        easeInOutCubic s.transitionProgress
  else (s.currentState : ℝ)

/-- States of the machine reachable from construction by toggle() and
update() calls with non-negative deltaTime and the default duration. -/
inductive Reachable : DayNight → Prop
  | init : Reachable initial
  | toggle {s : DayNight} : Reachable s → Reachable (toggle s)
  | update {s : DayNight} (dt : ℝ) : Reachable s → 0 ≤ dt →
      Reachable (update s dt).1

/-! ## Theorems -/

/-- C1: alpineHeight computes exactly the specified sequence with the
exact constants in the specified order: it equals the reference
definition built from fbm, ridgedNoise and domainWarp. -/
theorem alpineHeight_eq_reference (noise2D : ℝ → ℝ → ℝ) (x y : ℝ) :
    alpineHeight noise2D x y = alpineHeightSpec noise2D x y := by
  unfold alpineHeight alpineHeightSpec
  norm_num

/-- easeInOutCubic maps [0,1] into [0,1]. -/
lemma easeInOutCubic_mem {t : ℝ} (h0 : 0 ≤ t) (h1 : t ≤ 1) :
    0 ≤ easeInOutCubic t ∧ easeInOutCubic t ≤ 1 := by
  unfold easeInOutCubic
  split_ifs with h
  · refine ⟨by positivity, ?_⟩
    nlinarith [mul_nonneg (by linarith : (0:ℝ) ≤ 0.5 - t) (mul_nonneg h0 h0), mul_nonneg (by linarith : (0:ℝ) ≤ 0.5 - t) h0]
  · push_neg at h
    constructor
    · nlinarith [sq_nonneg (-2 * t + 2), mul_nonneg (mul_nonneg (by linarith : (0:ℝ) ≤ -2 * t + 2) (by linarith : (0:ℝ) ≤ -2 * t + 2)) (by linarith : (0:ℝ) ≤ -2 * t + 2)]
    · nlinarith [mul_nonneg (mul_nonneg (by linarith : (0:ℝ) ≤ -2 * t + 2) (by linarith : (0:ℝ) ≤ -2 * t + 2)) (by linarith : (0:ℝ) ≤ -2 * t + 2)]

/-- easeInOutCubic is non-decreasing on [0,1]. -/
lemma easeInOutCubic_mono {s t : ℝ} (hs : 0 ≤ s) (hst : s ≤ t) (ht : t ≤ 1) :
    easeInOutCubic s ≤ easeInOutCubic t := by
  unfold easeInOutCubic
  split_ifs with h1 h2 h2
  · nlinarith [mul_nonneg hs hs, mul_nonneg (sub_nonneg.2 hst) (sub_nonneg.2 hst), mul_nonneg (mul_nonneg hs hs) (sub_nonneg.2 hst)]
  · push_neg at h2
    nlinarith [mul_nonneg (mul_nonneg (by linarith : (0:ℝ) ≤ -2 * t + 2) (by linarith : (0:ℝ) ≤ -2 * t + 2)) (by linarith : (0:ℝ) ≤ -2 * t + 2), mul_nonneg hs hs]
  · push_neg at h1
    linarith
  · push_neg at h1 h2
    nlinarith [mul_nonneg (sub_nonneg.2 hst) (sub_nonneg.2 hst), mul_nonneg (mul_nonneg (by linarith : (0:ℝ) ≤ -2 * t + 2) (by linarith : (0:ℝ) ≤ -2 * t + 2)) (sub_nonneg.2 hst), mul_nonneg (mul_nonneg (by linarith : (0:ℝ) ≤ -2 * s + 2) (by linarith : (0:ℝ) ≤ -2 * s + 2)) (sub_nonneg.2 hst)]

/-- C8: easeInOutCubic satisfies f(0)=0, f(1)=1, f(0.5)=0.5 and is
non-decreasing on [0,1]. -/
theorem easeInOutCubic_spec :
    easeInOutCubic 0 = 0 ∧ easeInOutCubic 1 = 1 ∧
    easeInOutCubic 0.5 = 0.5 ∧
    ∀ s t : ℝ, 0 ≤ s → s ≤ t → t ≤ 1 →
      easeInOutCubic s ≤ easeInOutCubic t := by
  refine ⟨?_, ?_, ?_, fun s t hs hst ht => easeInOutCubic_mono hs hst ht⟩
  · norm_num [easeInOutCubic]
  · norm_num [easeInOutCubic]
  · norm_num [easeInOutCubic]

/-- Witness for C8 at s = 0, t = 1. -/
theorem easeInOutCubic_spec_witness :
    easeInOutCubic 0 ≤ easeInOutCubic 1 :=
  easeInOutCubic_spec.2.2.2 0 1 le_rfl zero_le_one le_rfl

/-- Accumulator bounds for the ridged-noise loop: with a bounded noise
primitive and positive amplitudes, the running total stays within
[0, maxValue] and maxValue never decreases. -/
lemma ridgedAux_bound (noise2D : ℝ → ℝ → ℝ)
    (hn : ∀ a b, noise2D a b ∈ Set.Icc (-1 : ℝ) 1)
    (x y persistence lacunarity : ℝ) (hp : 0 < persistence) :
    ∀ (n : ℕ) (total frequency amplitude maxValue : ℝ),
      0 < amplitude → 0 ≤ total → total ≤ maxValue →
      0 ≤ (ridgedAux noise2D x y persistence lacunarity n total frequency amplitude maxValue).1 ∧
      (ridgedAux noise2D x y persistence lacunarity n total frequency amplitude maxValue).1 ≤
        (ridgedAux noise2D x y persistence lacunarity n total frequency amplitude maxValue).2 ∧
      maxValue ≤ (ridgedAux noise2D x y persistence lacunarity n total frequency amplitude maxValue).2 := by
  intro n
  induction n with
  | zero =>
      intro total frequency amplitude maxValue _ h2 h3
      exact ⟨h2, h3, le_rfl⟩
  | succ m ih =>
      intro total frequency amplitude maxValue h1 h2 h3
      have hnu := hn (x * frequency) (y * frequency)
      rw [Set.mem_Icc] at hnu
      have habs : |noise2D (x * frequency) (y * frequency)| ≤ 1 :=
        abs_le.mpr hnu
      have hsq0 : 0 ≤ (1 - |noise2D (x * frequency) (y * frequency)|) *
          (1 - |noise2D (x * frequency) (y * frequency)|) := by
        have : 0 ≤ 1 - |noise2D (x * frequency) (y * frequency)| := by linarith
        positivity
      have hsq1 : (1 - |noise2D (x * frequency) (y * frequency)|) *
          (1 - |noise2D (x * frequency) (y * frequency)|) ≤ 1 := by
        have h0 : 0 ≤ 1 - |noise2D (x * frequency) (y * frequency)| := by linarith
        have hb : 1 - |noise2D (x * frequency) (y * frequency)| ≤ 1 := by
          have := abs_nonneg (noise2D (x * frequency) (y * frequency))
          linarith
        nlinarith
      have step := ih
        (total + (1 - |noise2D (x * frequency) (y * frequency)|) *
          (1 - |noise2D (x * frequency) (y * frequency)|) * amplitude)
        (frequency * lacunarity) (amplitude * persistence)
        (maxValue + amplitude)
        (mul_pos h1 hp)
        (by nlinarith)
        (by nlinarith)
      simp only [ridgedAux]
      refine ⟨step.1, step.2.1, le_trans (by linarith) step.2.2⟩

/-- C7: with a noise primitive bounded in [-1,1], at least one octave and
positive persistence, ridgedNoise lands in [0,1]. -/
theorem ridgedNoise_mem_unit (noise2D : ℝ → ℝ → ℝ)
    (hn : ∀ a b, noise2D a b ∈ Set.Icc (-1 : ℝ) 1) (x y : ℝ)
    (octaves : ℕ) (hoct : 1 ≤ octaves)
    (persistence lacunarity scale : ℝ) (hp : 0 < persistence) :
    0 ≤ ridgedNoise noise2D x y octaves persistence lacunarity scale ∧
    ridgedNoise noise2D x y octaves persistence lacunarity scale ≤ 1 := by
  obtain ⟨m, rfl⟩ : ∃ m, octaves = m + 1 :=
    ⟨octaves - 1, (Nat.succ_pred_eq_of_pos hoct).symm⟩
  unfold ridgedNoise
  simp only [ridgedAux]
  have hnu := hn (x * scale) (y * scale)
  rw [Set.mem_Icc] at hnu
  have habs : |noise2D (x * scale) (y * scale)| ≤ 1 := abs_le.mpr hnu
  have habs0 := abs_nonneg (noise2D (x * scale) (y * scale))
  have hsq0 : 0 ≤ (1 - |noise2D (x * scale) (y * scale)|) *
      (1 - |noise2D (x * scale) (y * scale)|) := by
    have : 0 ≤ 1 - |noise2D (x * scale) (y * scale)| := by linarith
    positivity
  have hsq1 : (1 - |noise2D (x * scale) (y * scale)|) *
      (1 - |noise2D (x * scale) (y * scale)|) ≤ 1 := by
    nlinarith
  have step := ridgedAux_bound noise2D hn x y persistence lacunarity hp m
    (0 + (1 - |noise2D (x * scale) (y * scale)|) *
      (1 - |noise2D (x * scale) (y * scale)|) * 1)
    (scale * lacunarity) (1 * persistence) (0 + 1)
    (by linarith) (by nlinarith) (by nlinarith)
  have hpos : 0 < (ridgedAux noise2D x y persistence lacunarity m
      (0 + (1 - |noise2D (x * scale) (y * scale)|) *
        (1 - |noise2D (x * scale) (y * scale)|) * 1)
      (scale * lacunarity) (1 * persistence) (0 + 1)).2 := by
    have := step.2.2
    linarith
  exact ⟨div_nonneg step.1 hpos.le, (div_le_one hpos).mpr step.2.1⟩

/-- Witness for C7: the constant-zero noise primitive, one octave. -/
theorem ridgedNoise_mem_unit_witness :
    0 ≤ ridgedNoise (fun _ _ => 0) 0 0 1 0.5 2 1 ∧
    ridgedNoise (fun _ _ => 0) 0 0 1 0.5 2 1 ≤ 1 :=
  ridgedNoise_mem_unit (fun _ _ => 0)
    (by intro a b; rw [Set.mem_Icc]; norm_num) 0 0 1 le_rfl 0.5 2 1
    (by norm_num)

/-- C6: getHeightAt returns the sentinel 0 exactly when a normalized
coordinate leaves [0,1], and the scaled alpine height otherwise. -/
theorem getHeightAt_spec (noise2D : ℝ → ℝ → ℝ)
    (width depth heightScale x z : ℝ) :
    (((x + width / 2) / width < 0 ∨ (x + width / 2) / width > 1 ∨
      (z + depth / 2) / depth < 0 ∨ (z + depth / 2) / depth > 1) →
      getHeightAt noise2D width depth heightScale x z = 0) ∧
    (0 ≤ (x + width / 2) / width → (x + width / 2) / width ≤ 1 →
     0 ≤ (z + depth / 2) / depth → (z + depth / 2) / depth ≤ 1 →
      getHeightAt noise2D width depth heightScale x z =
        alpineHeight noise2D ((x + width / 2) / width)
          ((z + depth / 2) / depth) * heightScale) := by
  constructor
  · intro h
    simp only [getHeightAt]
    rw [if_pos h]
  · intro h1 h2 h3 h4
    simp only [getHeightAt]
    rw [if_neg]
    push_neg
    exact ⟨h1, h2, h3, h4⟩

/-- Witness for C6: an off-terrain query on the default 400x400 terrain
returns the sentinel 0. -/
theorem getHeightAt_spec_witness :
    getHeightAt (fun _ _ => 0) 400 400 120 1000 0 = 0 :=
  (getHeightAt_spec (fun _ _ => 0) 400 400 120 1000 0).1 (by norm_num)

/-- lerp of a value with itself is that value. -/
lemma lerp_self (a t : ℝ) : lerp a a t = a := by
  unfold lerp; ring

/-- lerpVec3 of a vector with itself is that vector. -/
lemma lerpVec3_self (v : Vec3) (t : ℝ) : lerpVec3 v v t = v := by
  unfold lerpVec3
  ext <;> simp [lerp_self]

/-- lerpColor of a color with itself is that color. -/
lemma lerpColor_self (c : Color) (t : ℝ) : lerpColor c c t = c := by
  unfold lerpColor
  ext <;> simp [lerp_self]

/-- Normalizing a vector of nonzero length yields a unit vector. -/
lemma norm3_normalize3 (v : Vec3) (h : norm3 v ≠ 0) :
    norm3 (normalize3 v) = 1 := by
  have hS : 0 ≤ v.x * v.x + v.y * v.y + v.z * v.z :=
    add_nonneg (add_nonneg (mul_self_nonneg _) (mul_self_nonneg _))
      (mul_self_nonneg _)
  have hl0 : 0 ≤ norm3 v := Real.sqrt_nonneg _
  have hlpos : 0 < norm3 v := lt_of_le_of_ne hl0 (Ne.symm h)
  have hl2 : norm3 v * norm3 v = v.x * v.x + v.y * v.y + v.z * v.z :=
    Real.mul_self_sqrt hS
  show Real.sqrt _ = 1
  simp only [normalize3]
  have hsum : v.x / norm3 v * (v.x / norm3 v) + v.y / norm3 v * (v.y / norm3 v) +
      v.z / norm3 v * (v.z / norm3 v) = 1 := by
    field_simp
    nlinarith [hl2]
  rw [hsum, Real.sqrt_one]

/-- Normalizing a unit vector leaves it unchanged. -/
lemma normalize3_of_norm_one (v : Vec3) (h : norm3 v = 1) :
    normalize3 v = v := by
  unfold normalize3
  rw [h]
  ext <;> simp

/-- The canonical states store pre-normalized sun directions of unit
length. -/
lemma stateOf_dir_norm (n : ℕ) : norm3 (stateOf n).sunDirection = 1 := by
  unfold stateOf
  split_ifs
  · show norm3 (normalize3 ⟨0.4, 0.8, 0.3⟩) = 1
    refine norm3_normalize3 _ ?_
    unfold norm3
    rw [Real.sqrt_ne_zero']
    norm_num
  · show norm3 (normalize3 ⟨-0.3, 0.6, -0.3⟩) = 1
    refine norm3_normalize3 _ ?_
    unfold norm3
    rw [Real.sqrt_ne_zero']
    norm_num

/-- Interpolating a lighting state with itself at any factor returns the
state unchanged, provided its sun direction is unit length. -/
lemma lerpState_self (st : LightingState) (h : norm3 st.sunDirection = 1)
    (t : ℝ) : lerpState st st t = st := by
  simp [lerpState, lerpVec3_self, lerpColor_self, lerp_self,
    normalize3_of_norm_one _ h]

/-- Invariant of every reachable machine state: the default duration is
kept, progress stays in [0,1], the discrete states stay in {0,1}, and an
idle machine aims at its own state. -/
lemma reachable_inv {s : DayNight} (h : Reachable s) :
    s.transitionDuration = 2.5 ∧ 0 ≤ s.transitionProgress ∧
    s.transitionProgress ≤ 1 ∧ s.currentState ≤ 1 ∧ s.targetState ≤ 1 ∧
    (s.isTransitioning = false → s.currentState = s.targetState) := by
  induction h with
  | init =>
      exact ⟨rfl, le_rfl, zero_le_one, Nat.zero_le 1, Nat.zero_le 1,
        fun _ => rfl⟩
  | toggle h ih =>
      obtain ⟨d, p0, p1, c1, t1, idle⟩ := ih
      rename_i s'
      unfold toggle
      split_ifs with ht h0 h0 <;> dsimp only
      · exact ⟨d, p0, p1, c1, le_rfl, fun hf => absurd hf (by simp [ht])⟩
      · exact ⟨d, p0, p1, c1, Nat.zero_le 1,
          fun hf => absurd hf (by simp [ht])⟩
      · exact ⟨d, le_rfl, zero_le_one, c1, le_rfl,
          fun hf => hf.elim⟩
      · exact ⟨d, le_rfl, zero_le_one, c1, Nat.zero_le 1,
          fun hf => hf.elim⟩
  | update dt h hdt ih =>
      obtain ⟨d, p0, p1, c1, t1, idle⟩ := ih
      rename_i s'
      simp only [update]
      split_ifs with ht hp <;> dsimp only
      · exact ⟨d, zero_le_one, le_rfl, t1, t1, fun _ => rfl⟩
      · have hdiv : (0:ℝ) ≤ dt / s'.transitionDuration := by
          rw [d]
          exact div_nonneg hdt (by norm_num)
        exact ⟨d, by linarith, by linarith [not_le.mp hp], c1, t1,
          fun hf => hf.elim⟩
      · exact ⟨d, p0, p1, c1, t1, idle⟩

/-- C10: whenever a reachable machine state is idle, it aims at its own
state: currentState = targetState. -/
theorem idle_current_eq_target {s : DayNight} (h : Reachable s)
    (hidle : s.isTransitioning = false) :
    s.currentState = s.targetState :=
  (reachable_inv h).2.2.2.2.2 hidle

/-- Witness for C10 at the constructor state. -/
theorem idle_current_eq_target_witness :
    initial.currentState = initial.targetState :=
  idle_current_eq_target Reachable.init rfl

/-- C4 (amended): on every reachable state, getCurrentValue returns
currentState exactly when idle and currentState + direction * eased
progress when transitioning; the value lies in [0,1] whenever the machine
is idle or aims at the opposite state (a mid-flight reversal that makes
targetState = currentState can leave [0,1]). -/
theorem getCurrentValue_range {s : DayNight} (h : Reachable s) :
    (s.isTransitioning = false → getCurrentValue s = (s.currentState : ℝ)) ∧
    (s.isTransitioning = true → getCurrentValue s = (s.currentState : ℝ) +
      (if s.currentState < s.targetState then 1 else -1) *
        easeInOutCubic s.transitionProgress) ∧
    (s.isTransitioning = false ∨ s.targetState ≠ s.currentState →
      0 ≤ getCurrentValue s ∧ getCurrentValue s ≤ 1) := by
  obtain ⟨d, p0, p1, c1, t1, idle⟩ := reachable_inv h
  have hm := easeInOutCubic_mem p0 p1
  refine ⟨?_, ?_, ?_⟩
  · intro hf
    unfold getCurrentValue
    rw [if_neg (by simp [hf])]
  · intro ht
    unfold getCurrentValue
    rw [if_pos ht]
  · intro hcase
    unfold getCurrentValue
    rcases Bool.eq_false_or_eq_true s.isTransitioning with ht | hf
    · rw [if_pos ht]
      rcases hcase with hf2 | hne
      · rw [hf2] at ht
        exact Bool.noConfusion ht
      · rcases Nat.le_one_iff_eq_zero_or_eq_one.mp c1 with hc | hc <;>
          rcases Nat.le_one_iff_eq_zero_or_eq_one.mp t1 with htg | htg
        · exact absurd (htg.trans hc.symm) hne
        · rw [hc, htg]
          norm_num
          constructor <;> linarith [hm.1, hm.2]
        · rw [hc, htg]
          norm_num
          constructor <;> linarith [hm.1, hm.2]
        · exact absurd (htg.trans hc.symm) hne
    · rw [if_neg (by simp [hf])]
      exact ⟨Nat.cast_nonneg _, by exact_mod_cast c1⟩

/-- Counterexample for C4 as stated: after toggle, a partial update and a
reversing toggle, the machine is reachable, transitioning, and
getCurrentValue is negative. -/
theorem getCurrentValue_range_counterexample :
    Reachable (toggle ((update (toggle initial) 0.75).1)) ∧
    getCurrentValue (toggle ((update (toggle initial) 0.75).1)) < 0 := by
  constructor
  · exact Reachable.toggle
      (Reachable.update 0.75 (Reachable.toggle Reachable.init) (by norm_num))
  · norm_num [getCurrentValue, toggle, update, initial, easeInOutCubic]

/-- Witness for C4 (amended) at the idle constructor state. -/
theorem getCurrentValue_range_witness :
    0 ≤ getCurrentValue initial ∧ getCurrentValue initial ≤ 1 :=
  (getCurrentValue_range Reachable.init).2.2 (Or.inl rfl)

/-- C5: from idle Day with duration 2.5, after toggle() the first
update(1.25) reaches progress 0.5, eased 0.5 and sun intensity 1.15; the
second update(1.25) completes with progress exactly 1, currentState
Night, isTransitioning false and sun intensity exactly 0.3. -/
theorem transition_scenario_full :
    (update (toggle initial) 1.25).1.transitionProgress = 0.5 ∧
    easeInOutCubic 0.5 = 0.5 ∧
    (update (toggle initial) 1.25).2.map LightingState.sunIntensity =
      some 1.15 ∧
    (update ((update (toggle initial) 1.25).1) 1.25).1.transitionProgress = 1 ∧
    (update ((update (toggle initial) 1.25).1) 1.25).1.currentState = 1 ∧
    (update ((update (toggle initial) 1.25).1) 1.25).1.isTransitioning = false ∧
    (update ((update (toggle initial) 1.25).1) 1.25).2.map
      LightingState.sunIntensity = some 0.3 := by
  norm_num [update, toggle, initial, lerpState, lerp, easeInOutCubic,
    stateOf, dayState, nightState]

/-- C3 (failing input): with duration set to -2.5, an active transition
updated with deltaTime 1.25 gets progress -0.5 and never completes; the
code does not guard the division by a non-positive duration. -/
theorem update_nonpositive_duration_unguarded :
    (update (setTransitionDuration (toggle initial) (-2.5)) 1.25).1.transitionProgress = -0.5 ∧
    (update (setTransitionDuration (toggle initial) (-2.5)) 1.25).1.isTransitioning = true := by
  norm_num [update, setTransitionDuration, toggle, initial]

/-- When a transition whose target equals its current state is updated
and stays active, the emitted blend is exactly the canonical state of
currentState, independent of progress. -/
lemma update_self_target (s : DayNight) (dt : ℝ)
    (htrans : s.isTransitioning = true)
    (heq : s.targetState = s.currentState)
    (hlt : s.transitionProgress + dt / s.transitionDuration < 1) :
    (update s dt).2 = some (stateOf s.currentState) ∧
    (update s dt).1.currentColors = stateOf s.currentState := by
  have hnorm := stateOf_dir_norm s.currentState
  simp only [update]
  rw [if_pos htrans]
  simp only [if_neg (not_le.mpr hlt)]
  rw [heq, lerpState_self _ hnorm]
  exact ⟨rfl, rfl⟩

/-- C9: after a reversal has made targetState = currentState during an
active transition, any update that leaves the transition active selects
the same canonical state as both interpolation endpoints, so the blended
state written and emitted equals the canonical state of currentState
exactly. -/
theorem reversed_transition_jumps_to_endpoint (s : DayNight) (dt : ℝ)
    (htrans : s.isTransitioning = true)
    (heq : s.targetState = s.currentState)
    (hlt : s.transitionProgress + dt / s.transitionDuration < 1) :
    (update s dt).2 = some (stateOf s.currentState) ∧
    (update s dt).1.currentColors = stateOf s.currentState :=
  update_self_target s dt htrans heq hlt

/-- Witness for C9 on a concrete reversed transition at progress 0.3. -/
theorem reversed_transition_jumps_to_endpoint_witness :
    (update ⟨0, 0, 0.3, 2.5, true, dayState⟩ 0).2 = some (stateOf 0) :=
  (reversed_transition_jumps_to_endpoint ⟨0, 0, 0.3, 2.5, true, dayState⟩ 0
    rfl rfl (by norm_num)).1

/-- C2 (amended): toggle() during an active transition flips targetState
to opposite(targetState) and leaves transitionProgress and currentState
unchanged; the transition is redirected, and the subsequently emitted
blend equals the canonical state of the unchanged currentState — it
jumps to that endpoint rather than continuing from the current blend
position. -/
theorem toggle_mid_transition (s : DayNight) (dt : ℝ)
    (htrans : s.isTransitioning = true)
    (hcur : s.currentState ≤ 1) (htgt : s.targetState ≤ 1)
    (hne : s.targetState ≠ s.currentState)
    (hlt : s.transitionProgress + dt / s.transitionDuration < 1) :
    (toggle s).targetState = opposite s.targetState ∧
    (toggle s).transitionProgress = s.transitionProgress ∧
    (toggle s).currentState = s.currentState ∧
    (update (toggle s) dt).2 = some (stateOf s.currentState) := by
  have htg2 : (toggle s).targetState = opposite s.targetState := by
    unfold toggle opposite
    rw [if_pos htrans]
  have hprog : (toggle s).transitionProgress = s.transitionProgress := by
    unfold toggle
    rw [if_pos htrans]
  have hcur2 : (toggle s).currentState = s.currentState := by
    unfold toggle
    rw [if_pos htrans]
  have hdur : (toggle s).transitionDuration = s.transitionDuration := by
    unfold toggle
    rw [if_pos htrans]
  have htr2 : (toggle s).isTransitioning = true := by
    unfold toggle
    rw [if_pos htrans]
    exact htrans
  have heq2 : (toggle s).targetState = (toggle s).currentState := by
    rw [htg2, hcur2]
    rcases Nat.le_one_iff_eq_zero_or_eq_one.mp hcur with hc | hc <;>
      rcases Nat.le_one_iff_eq_zero_or_eq_one.mp htgt with ht2 | ht2
    · exact absurd (ht2.trans hc.symm) hne
    · simp [opposite, hc, ht2]
    · simp [opposite, hc, ht2]
    · exact absurd (ht2.trans hc.symm) hne
  have hlt2 : (toggle s).transitionProgress +
      dt / (toggle s).transitionDuration < 1 := by
    rw [hprog, hdur]
    exact hlt
  have main := update_self_target (toggle s) dt htr2 heq2 hlt2
  rw [hcur2] at main
  exact ⟨htg2, hprog, hcur2, main.1⟩

/-- Counterexample for C2 as stated: at progress 0.3 of a Day-to-Night
transition the emitted sun intensity is 1.8164, but immediately after a
reversing toggle() the next emitted sun intensity is 2 (the Day
endpoint), not a continuation of the current blend position. -/
theorem toggle_mid_transition_counterexample :
    (update (toggle initial) 0.75).2.map LightingState.sunIntensity =
      some 1.8164 ∧
    (update (toggle ((update (toggle initial) 0.75).1)) 0).2.map
      LightingState.sunIntensity = some 2 ∧
    (1.8164 : ℝ) ≠ 2 := by
  refine ⟨?_, ?_, by norm_num⟩ <;>
    norm_num [update, toggle, initial, lerpState, lerp, easeInOutCubic,
      stateOf, dayState, nightState]

/-- Witness for C2 (amended) on a concrete mid-flight transition. -/
theorem toggle_mid_transition_witness :
    (toggle ⟨0, 1, 0.3, 2.5, true, dayState⟩).targetState = opposite 1 ∧
    (toggle ⟨0, 1, 0.3, 2.5, true, dayState⟩).transitionProgress = 0.3 ∧
    (toggle ⟨0, 1, 0.3, 2.5, true, dayState⟩).currentState = 0 ∧
    (update (toggle ⟨0, 1, 0.3, 2.5, true, dayState⟩) 0).2 =
      some (stateOf 0) :=
  toggle_mid_transition ⟨0, 1, 0.3, 2.5, true, dayState⟩ 0 rfl
    (by norm_num) le_rfl (by norm_num) (by norm_num)

end Mountains
